import Mathlib

/-!
Shallow embedding of the request-processing gateway layer of the
express-learning repository: token service, authentication gate,
authorization gate, response cache and rate limiting tiers, with
theorems checking the natural-language specification against the code.
-/

namespace Gateway

/-- The closed role enumeration from the Prisma `UserRole` enum. -/
inductive UserRole where
  | USER
  | ADMIN
  | MODERATOR
deriving DecidableEq

/-- A stored user record (Prisma `User` model): includes the password hash. -/
structure User where
  id : Int
  name : String
  email : String
  password : String
  role : UserRole
  isActive : Bool
deriving DecidableEq

/-- The `AuthenticatedUser` shape from the auth types: a user record with
the password field destructured away. -/
structure AuthenticatedUser where
  id : Int
  name : String
  email : String
  role : UserRole
  isActive : Bool
deriving DecidableEq

/-- The `userWithoutPassword` destructuring used by the auth service:
projects a stored user to its public shape, dropping the password. -/
def toPublic (u : User) : AuthenticatedUser :=
  ⟨u.id, u.name, u.email, u.role, u.isActive⟩

/-- `AppError` from the error-handler middleware: message and HTTP status. -/
structure AppError where
  message : String
  statusCode : Nat
deriving DecidableEq

/-- The `JwtPayload` interface: claims carried by a token. -/
structure JwtPayload where
  userId : Int
  email : String
  role : UserRole
  iat : Int
  exp : Int
deriving DecidableEq

/-- Name of a role, used in the modelled signature encoding. -/
def UserRole.asString : UserRole → String
  | .USER => "USER"
  | .ADMIN => "ADMIN"
  | .MODERATOR => "MODERATOR"

/-- Modelled from the spec: the jsonwebtoken library (external to src/) signs
with a symmetric secret; modelled as a deterministic tag over secret and
claims, so a signature verifies exactly when it was produced with the same
secret over the same payload. -/
def jwtSig (secret : String) (p : JwtPayload) : String :=
  secret ++ "|" ++ toString p.userId ++ "|" ++ p.email ++ "|" ++ p.role.asString
    ++ "|" ++ toString p.iat ++ "|" ++ toString p.exp

/-- A bearer token: either structurally malformed, or a signed claims blob. -/
inductive Token where
  | malformed (raw : String)
  | signed (payload : JwtPayload) (sig : String)
deriving DecidableEq

/-- Modelled from the spec: `jwt.verify` of the jsonwebtoken library (external
to src/) rejects malformed tokens, tokens whose signature does not match the
secret, and tokens whose `exp` is not in the future; the internal error cause
is distinct per failure. -/
def jwtVerify (secret : String) (now : Int) : Token → Except String JwtPayload
  | .malformed _ => .error "jwt malformed"
  | .signed p s =>
    if s ≠ jwtSig secret p then .error "invalid signature"
    else if p.exp ≤ now then .error "jwt expired"
    else .ok p

/-- `authService.verifyToken`: wraps `jwt.verify`; any failure cause is
replaced by the single external `AppError` with message
"Invalid or expired token" and status 401. -/
def verifyToken (secret : String) (now : Int) (t : Token) : Except AppError JwtPayload :=
  match jwtVerify secret now t with
  | .ok p => .ok p
  | .error _ => .error ⟨"Invalid or expired token", 401⟩

/-- `authService.generateToken`: signs the claims with the configured secret
and the configured expiry duration. -/
def generateToken (secret : String) (now expiresInMs : Int)
    (userId : Int) (email : String) (role : UserRole) : Token :=
  let p : JwtPayload := ⟨userId, email, role, now, now + expiresInMs⟩
  .signed p (jwtSig secret p)

/-- `authService.getUserById`: `findUnique` with `id` and `isActive: true` in
the filter, so a missing or deactivated user both yield no result; a found
user is returned without its password field. -/
def getUserById (store : List User) (id : Int) : Option AuthenticatedUser :=
  (store.find? fun u => u.id == id && u.isActive).map toPublic

/-- `authService.deactivateUser`: sets `isActive` to false on the user row. -/
def deactivateUser (store : List User) (userId : Int) : List User :=
  store.map fun u => if u.id == userId then { u with isActive := false } else u

/-- Modelled from the spec: bcrypt hashing (external library) as a
deterministic one-way tag; `hashPassword` wraps it with a fixed cost. -/
def bcryptHash (password : String) : String :=
  "bcrypt$" ++ password

/-- Modelled from the spec: bcrypt comparison succeeds exactly when the digest
was produced from the same plaintext. -/
def bcryptCompare (password hashed : String) : Bool :=
  hashed == bcryptHash password

/-- The `AuthResponse` shape: public user, token, expiry. -/
structure AuthResponse where
  user : AuthenticatedUser
  token : Token
  expiresInMs : Int
deriving DecidableEq

/-- Modelled from the spec: the persistence layer assigns autoincrement ids;
modelled as one past the current row count. -/
def nextUserId (store : List User) : Int :=
  Int.ofNat store.length + 1

/-- `authService.register`: rejects duplicate email with 409, otherwise stores
the user with the hashed password and role USER, issues a token, and returns
the created user without its password field. -/
def register (store : List User) (secret : String) (now expiresInMs : Int)
    (name email password : String) : Except AppError (List User × AuthResponse) :=
  if store.any fun u => u.email == email then
    .error ⟨"User with this email already exists", 409⟩
  else
    let u : User := ⟨nextUserId store, name, email, bcryptHash password, .USER, true⟩
    let t := generateToken secret now expiresInMs u.id u.email u.role
    .ok (store ++ [u], ⟨toPublic u, t, expiresInMs⟩)

/-- `authService.login`: finds the user by email, rejects a missing user or
empty stored password, a deactivated account, and a failed password
comparison, each with 401; on success issues a token and returns the user
without its password field. -/
def login (store : List User) (secret : String) (now expiresInMs : Int)
    (email password : String) : Except AppError AuthResponse :=
  match store.find? fun u => u.email == email with
  | none => .error ⟨"Invalid credentials", 401⟩
  | some u =>
    if u.password == "" then .error ⟨"Invalid credentials", 401⟩
    else if !u.isActive then .error ⟨"Account is deactivated", 401⟩
    else if !bcryptCompare password u.password then .error ⟨"Invalid credentials", 401⟩
    else
      let t := generateToken secret now expiresInMs u.id u.email u.role
      .ok ⟨toPublic u, t, expiresInMs⟩

/-- `authenticateToken` middleware: missing token fails 401; `verifyToken`
failure is forwarded (an `AppError`, so the catch clause passes it through);
a verified token triggers a live `getUserById` lookup, whose empty result
fails 401; otherwise the resolved user is attached. The request's extracted
bearer token is the `Option Token` argument. -/
def authenticateToken (store : List User) (secret : String) (now : Int) :
    Option Token → Except AppError AuthenticatedUser
  | none => .error ⟨"Access token is required", 401⟩
  | some t =>
    match verifyToken secret now t with
    | .error e => .error e
    | .ok decoded =>
      match getUserById store decoded.userId with
      | none => .error ⟨"User not found or inactive", 401⟩
      | some user => .ok user

/-- `requireRole` middleware: no attached principal fails 401; a principal
whose role is in the allowed list passes; otherwise 403. -/
def requireRole (roles : List UserRole) : Option AuthenticatedUser → Except AppError Unit
  | none => .error ⟨"Authentication required", 401⟩
  | some u =>
    if roles.contains u.role then .ok ()
    else .error ⟨"Insufficient permissions", 403⟩

/-- `requireOwnershipOrAdmin` middleware: no attached principal fails 401;
passes when the principal owns the resource or has role ADMIN; otherwise
403. -/
def requireOwnershipOrAdmin (resourceUserId : Int) :
    Option AuthenticatedUser → Except AppError Unit
  | none => .error ⟨"Authentication required", 401⟩
  | some u =>
    if u.id == resourceUserId || u.role == UserRole.ADMIN then .ok ()
    else .error ⟨"Access denied", 403⟩

/-- Association-list lookup, modelling `Map.get`. -/
def assocGet {β : Type} (l : List (String × β)) (k : String) : Option β :=
  (l.find? fun p => p.1 == k).map fun p => p.2

/-- Association-list update, modelling `Map.set` of a JavaScript `Map`:
an existing key is updated in place (its insertion position is kept),
a new key is appended at the end. -/
def assocSet {β : Type} (l : List (String × β)) (k : String) (v : β) :
    List (String × β) :=
  if l.any fun p => p.1 == k then
    l.map fun p => if p.1 == k then (k, v) else p
  else l ++ [(k, v)]

/-- Association-list removal, modelling `Map.delete`. -/
def assocDelete {β : Type} (l : List (String × β)) (k : String) :
    List (String × β) :=
  l.filter fun p => p.1 != k

/-- The `CacheEntry` interface: payload, store time, ttl in milliseconds. -/
structure CacheEntry (α : Type) where
  data : α
  timestamp : Int
  ttl : Int
deriving DecidableEq

/-- `SimpleCache.maxSize`, fixed to 1000 in the source. -/
def cacheMaxSize : Nat := 1000

/-- The `SimpleCache` backing map, in `Map` insertion order. -/
structure SimpleCache (α : Type) where
  entries : List (String × CacheEntry α)
deriving DecidableEq

/-- A freshly constructed `SimpleCache`. -/
def emptyCache (α : Type) : SimpleCache α := ⟨[]⟩

/-- `SimpleCache.set`: when the map holds at least `maxSize` entries, the
first key in iteration order (the oldest-inserted surviving key) is deleted,
then the new entry is stored with `timestamp` now and ttl converted to
milliseconds. -/
def SimpleCache.set {α : Type} (c : SimpleCache α) (key : String) (data : α)
    (ttlSeconds : Int) (now : Int) : SimpleCache α :=
  let pruned :=
    if c.entries.length ≥ cacheMaxSize then
      match c.entries.head? with
      | some p => assocDelete c.entries p.1
      | none => c.entries
    else c.entries
  ⟨assocSet pruned key ⟨data, now, ttlSeconds * 1000⟩⟩

/-- `SimpleCache.get`: a missing key is a miss; an entry with
`now - timestamp > ttl` is deleted and reported as a miss; otherwise the
payload is returned and the cache is unchanged. -/
def SimpleCache.get {α : Type} (c : SimpleCache α) (key : String) (now : Int) :
    Option α × SimpleCache α :=
  match assocGet c.entries key with
  | none => (none, c)
  | some e =>
    if now - e.timestamp > e.ttl then (none, ⟨assocDelete c.entries key⟩)
    else (some e.data, c)

/-- `SimpleCache.delete`. -/
def SimpleCache.del {α : Type} (c : SimpleCache α) (key : String) : SimpleCache α :=
  ⟨assocDelete c.entries key⟩

/-- `SimpleCache.clear`. -/
def SimpleCache.clearAll {α : Type} (_c : SimpleCache α) : SimpleCache α := ⟨[]⟩

/-- `invalidateCache`: the only handled pattern is the literal string
`users*`, for which the whole cache is cleared; any other pattern leaves the
cache untouched. -/
def invalidateCache {α : Type} (pattern : String) (c : SimpleCache α) : SimpleCache α :=
  if pattern == "users*" then c.clearAll else c

/-- Modelled from the spec: the prefix/glob key-matching rule the spec
assigns to `invalidate(pattern)` — a trailing `*` matches any key starting
with the part before it, otherwise the pattern must equal the key. Stated
here only to compare the spec with the code. -/
def specGlobMatches (pattern key : String) : Bool :=
  match pattern.toList.getLast? with
  | some c =>
    if c = '*' then pattern.toList.dropLast.isPrefixOf key.toList
    else pattern == key
  | none => pattern == key

/-- One externally visible cache operation, for stating invariants over
arbitrary operation sequences. -/
inductive CacheOp (α : Type) where
  | setOp (key : String) (data : α) (ttlSeconds : Int) (now : Int)
  | getOp (key : String) (now : Int)
  | delOp (key : String)
  | clearOp
  | invalidateOp (pattern : String)

/-- Apply one cache operation to the cache state. -/
def applyOp {α : Type} (c : SimpleCache α) : CacheOp α → SimpleCache α
  | .setOp k d t n => c.set k d t n
  | .getOp k n => (c.get k n).2
  | .delOp k => c.del k
  | .clearOp => c.clearAll
  | .invalidateOp p => invalidateCache p c

/-- Substring search over character lists: does `pat` occur inside the
second list? -/
def charsContain (pat : List Char) : List Char → Bool
  | [] => pat.isEmpty
  | c :: cs => pat.isPrefixOf (c :: cs) || charsContain pat cs

/-- JavaScript `String.prototype.includes`, as used by the health-check
skip predicate of the general limiter. -/
def jsIncludes (s pattern : String) : Bool :=
  charsContain pattern.toList s.toList

/-- One client's rate-limit window: request count and window start time. -/
structure RateWindow where
  count : Nat
  windowStart : Int
deriving DecidableEq

/-- A rate-limit tier configuration: window duration, threshold, whether
successful requests are uncounted, and the skip predicate over paths. -/
structure RateLimitConfig where
  windowMs : Int
  maxRequests : Nat
  skipSuccessful : Bool
  skipPath : String → Bool

/-- Outcome of a rate-limit check. -/
inductive RateResult where
  | allowed
  | rejected (retryAfterMs : Int)
deriving DecidableEq

/-- Modelled from the spec: the client's effective window — the stored
window when fresh, a reset window starting now when stale or absent. -/
def currentWindow (cfg : RateLimitConfig) (st : List (String × RateWindow))
    (key : String) (now : Int) : RateWindow :=
  match assocGet st key with
  | some w => if now - w.windowStart ≥ cfg.windowMs then ⟨0, now⟩ else w
  | none => ⟨0, now⟩

/-- The effective window with this request counted. -/
def bumpedWindow (cfg : RateLimitConfig) (st : List (String × RateWindow))
    (key : String) (now : Int) : RateWindow :=
  ⟨(currentWindow cfg st key now).count + 1, (currentWindow cfg st key now).windowStart⟩

/-- Modelled from the spec: the fixed-window limiter algorithm behind
`express-rate-limit` (external to src/) — skip exempt paths untouched; look
up or create the client's window; reset a stale window; increment the count;
reject over-threshold requests with a retry-after equal to the remaining
time in the current window. -/
def rateLimitStep (cfg : RateLimitConfig) (st : List (String × RateWindow))
    (key path : String) (now : Int) : RateResult × List (String × RateWindow) :=
  if cfg.skipPath path then (.allowed, st)
  else if (bumpedWindow cfg st key now).count > cfg.maxRequests then
    (.rejected ((bumpedWindow cfg st key now).windowStart + cfg.windowMs - now),
      assocSet st key (bumpedWindow cfg st key now))
  else (.allowed, assocSet st key (bumpedWindow cfg st key now))

/-- Modelled from the spec: a tier with `skipSuccessfulRequests` uncounts a
request whose response turned out successful; failures stay counted. -/
def recordOutcome (cfg : RateLimitConfig) (st : List (String × RateWindow))
    (key : String) (succeeded : Bool) : List (String × RateWindow) :=
  if cfg.skipSuccessful && succeeded then
    match assocGet st key with
    | some w => assocSet st key ⟨w.count - 1, w.windowStart⟩
    | none => st
  else st

/-- `generalLimiter` configuration: 15-minute window, 100 requests, skip when
the request path contains "/health". -/
def generalLimiterCfg : RateLimitConfig :=
  ⟨15 * 60 * 1000, 100, false, fun path => jsIncludes path "/health"⟩

/-- `authLimiter` configuration: 15-minute window, 5 attempts, successful
requests uncounted, no skip predicate. -/
def authLimiterCfg : RateLimitConfig :=
  ⟨15 * 60 * 1000, 5, true, fun _ => false⟩

/-- A progressive-delay tier configuration, matching `speedLimiter`:
15-minute window, soft threshold 50, 100 ms per hit, capped at 5000 ms,
and no skip predicate. -/
structure SlowDownConfig where
  windowMs : Int
  delayAfter : Nat
  delayPerHitMs : Nat
  maxDelayMs : Nat
  skipPath : String → Bool

/-- The `speedLimiter` configuration from the source. -/
def speedLimiterCfg : SlowDownConfig :=
  ⟨15 * 60 * 1000, 50, 100, 5000, fun _ => false⟩

/-- Modelled from the spec: the progressive-delay tier behind
`express-slow-down` (external to src/) — same window bookkeeping as a
limiter, never rejects, and once the hit count passes the soft threshold it
returns an artificial delay of `hits * delayPerHitMs` capped at
`maxDelayMs`. -/
def slowDownStep (cfg : SlowDownConfig) (st : List (String × RateWindow))
    (key path : String) (now : Int) : Nat × List (String × RateWindow) :=
  if cfg.skipPath path then (0, st)
  else
    let w : RateWindow :=
      match assocGet st key with
      | some w => if now - w.windowStart ≥ cfg.windowMs then ⟨0, now⟩ else w
      | none => ⟨0, now⟩
    let w2 : RateWindow := ⟨w.count + 1, w.windowStart⟩
    let st2 := assocSet st key w2
    if w2.count > cfg.delayAfter then
      (min (w2.count * cfg.delayPerHitMs) cfg.maxDelayMs, st2)
    else (0, st2)

/-- Fixture: a cache holding one entry whose key matches the glob
pattern "posts*". -/
def postsCache : SimpleCache String := ⟨[("posts:1", ⟨"v", 0, 1000⟩)]⟩

/-- Fixture: a cache entry stored at time 0 with a 1000 ms ttl. -/
def boundaryCache : SimpleCache String := ⟨[("k", ⟨"v", 0, 1000⟩)]⟩

/-- Fixture: a cache filled to exactly `cacheMaxSize` entries, with the
oldest-inserted key "k0" at the head of insertion order. -/
def bigCache : SimpleCache Nat :=
  ⟨("k0", ⟨0, 0, 0⟩) ::
    (List.range (cacheMaxSize - 1)).map fun i => ("k" ++ toString (i + 1), ⟨i + 1, 0, 0⟩)⟩

/-- Fixture: a deactivated stored user. -/
def staleStore : List User := [⟨1, "alice", "a@x", "pw", .USER, false⟩]

/-- Fixture: claims naming the deactivated user, unexpired at time 50. -/
def stalePayload : JwtPayload := ⟨1, "a@x", .USER, 0, 100⟩

/-- Fixture: a validly signed token over `stalePayload` with secret "s". -/
def staleToken : Token := .signed stalePayload (jwtSig "s" stalePayload)

/-- Fixture: claims that are expired at time 20. -/
def expiredPayload : JwtPayload := ⟨1, "e@x", .USER, 0, 10⟩

/-- Fixture: a validly signed but expired token with secret "k". -/
def expiredToken : Token := .signed expiredPayload (jwtSig "k" expiredPayload)

/-- Fixture: a plain USER principal with id 5. -/
def ownerUser : AuthenticatedUser := ⟨5, "bob", "b@x", .USER, true⟩

/-- Fixture: an ADMIN principal. -/
def adminUser : AuthenticatedUser := ⟨9, "root", "r@x", .ADMIN, true⟩

/-- Fixture: the speed-limiter window state after n requests to a
health-check path from one client at time 0. -/
def speedAfter : Nat → List (String × RateWindow)
  | 0 => []
  | n + 1 => (slowDownStep speedLimiterCfg (speedAfter n) "ip1" "/health" 0).2

/-- Fixture: outcome and window state after n rapid failed login attempts
from one client at a single instant, against the auth tier. -/
def authAttempts (now : Int) : Nat → RateResult × List (String × RateWindow)
  | 0 => (.allowed, [])
  | n + 1 =>
    let prev := authAttempts now n
    let step := rateLimitStep authLimiterCfg prev.2 "ip" "/api/v1/auth/login" now
    (step.1, recordOutcome authLimiterCfg step.2 "ip" false)

/-- Fixture: a store holding one active user for the response-shape
witnesses. -/
def demoStore : List User := [⟨1, "alice", "a@x", bcryptHash "pw", .USER, true⟩]

theorem find_none_of_no_active (store : List User) (i : Int)
    (h : ∀ u ∈ store, u.id = i → u.isActive = false) :
    (store.find? fun u => u.id == i && u.isActive) = none := by
  induction store with
  | nil => rfl
  | cons a l ih =>
    have ha : (a.id == i && a.isActive) = false := by
      by_cases hid : a.id = i
      · have := h a (List.mem_cons_self a l) hid
        simp [this]
      · simp [hid]
    have hl : (l.find? fun u => u.id == i && u.isActive) = none :=
      ih fun u hu => h u (List.mem_cons_of_mem a hu)
    simp [List.find?, ha, hl]

theorem getUserById_none_of_no_active (store : List User) (i : Int)
    (h : ∀ u ∈ store, u.id = i → u.isActive = false) :
    getUserById store i = none := by
  unfold getUserById
  rw [find_none_of_no_active store i h]
  rfl

theorem deactivate_no_active (store : List User) (i : Int) :
    ∀ u ∈ deactivateUser store i, u.id = i → u.isActive = false := by
  intro u hu hid
  obtain ⟨v, _, rfl⟩ := List.mem_map.mp hu
  by_cases h : v.id = i
  · simp [h]
  · simp [h] at hid

/-- C1: a bearer token that passes signature and expiry verification still
goes through a live principal lookup; when no active principal with the
token's principal id exists the gate fails with a 401 error, and in
particular the same still-valid token fails after the principal is
deactivated. -/
theorem auth_gate_rejects_stale_principal (store : List User) (secret : String)
    (now : Int) (t : Token) (p : JwtPayload)
    (hv : verifyToken secret now t = .ok p) :
    ((∀ u ∈ store, u.id = p.userId → u.isActive = false) →
      authenticateToken store secret now (some t) =
        .error ⟨"User not found or inactive", 401⟩) ∧
    authenticateToken (deactivateUser store p.userId) secret now (some t) =
      .error ⟨"User not found or inactive", 401⟩ := by
  have h1 : ∀ s : List User, (∀ u ∈ s, u.id = p.userId → u.isActive = false) →
      authenticateToken s secret now (some t) =
        .error ⟨"User not found or inactive", 401⟩ := by
    intro s hs
    have hnone := getUserById_none_of_no_active s p.userId hs
    simp [authenticateToken, hv, hnone]
  exact ⟨h1 store, h1 _ (deactivate_no_active store p.userId)⟩

/-- C1 witness: concrete still-unexpired, validly signed token for a
deactivated user is rejected with 401. -/
theorem auth_gate_rejects_stale_principal_witness :
    authenticateToken staleStore "s" 50 (some staleToken) =
      .error ⟨"User not found or inactive", 401⟩ :=
  (auth_gate_rejects_stale_principal staleStore "s" 50 staleToken stalePayload
    rfl).1 (by decide)

/-- C2: a malformed token, a token with a wrong signature, and a token whose
expiry is not in the future all make `verifyToken` fail — the expired case
regardless of the signature — and all three produce one and the same
external error value, so callers cannot tell the causes apart. -/
theorem verifyToken_uniform_error (secret : String) (now : Int) (t : Token)
    (h : (∃ r, t = .malformed r) ∨
      (∃ p s, t = .signed p s ∧ s ≠ jwtSig secret p) ∨
      (∃ p s, t = .signed p s ∧ p.exp ≤ now)) :
    verifyToken secret now t = .error ⟨"Invalid or expired token", 401⟩ := by
  rcases h with ⟨r, rfl⟩ | ⟨p, s, rfl, hs⟩ | ⟨p, s, rfl, he⟩
  · rfl
  · simp [verifyToken, jwtVerify, hs]
  · by_cases hs : s = jwtSig secret p
    · simp [verifyToken, jwtVerify, hs, he]
    · simp [verifyToken, jwtVerify, hs]

/-- C2 witness: a concrete expired token with a valid signature fails with
the single external error. -/
theorem verifyToken_uniform_error_witness :
    verifyToken "k" 20 expiredToken = .error ⟨"Invalid or expired token", 401⟩ :=
  verifyToken_uniform_error "k" 20 expiredToken
    (Or.inr (Or.inr ⟨expiredPayload, jwtSig "k" expiredPayload, rfl, by decide⟩))

/-- C3: with a principal attached, the ownership-or-role predicate passes
exactly when the principal's id equals the caller-supplied resource owner id
or the principal's role is in the privileged set (here the singleton ADMIN),
and otherwise fails with the 403 error. -/
theorem ownership_or_admin_iff (u : AuthenticatedUser) (r : Int) :
    (requireOwnershipOrAdmin r (some u) = .ok () ↔
      u.id = r ∨ u.role = UserRole.ADMIN) ∧
    (¬(u.id = r ∨ u.role = UserRole.ADMIN) →
      requireOwnershipOrAdmin r (some u) = .error ⟨"Access denied", 403⟩) := by
  by_cases h : u.id = r ∨ u.role = UserRole.ADMIN
  · constructor
    · constructor
      · intro _; exact h
      · intro _
        rcases h with h | h <;> simp [requireOwnershipOrAdmin, h]
    · intro hc; exact absurd h hc
  · push_neg at h
    constructor
    · constructor
      · intro hok
        simp [requireOwnershipOrAdmin, h.1, h.2] at hok
      · intro hor
        rcases hor with hor | hor
        · exact absurd hor h.1
        · exact absurd hor h.2
    · intro _
      simp [requireOwnershipOrAdmin, h.1, h.2]

/-- C3 witness: a USER principal with id 5 passes on a resource owned by 5
and fails with 403 on a resource owned by 7. -/
theorem ownership_or_admin_iff_witness :
    requireOwnershipOrAdmin 5 (some ownerUser) = .ok () ∧
    requireOwnershipOrAdmin 7 (some ownerUser) = .error ⟨"Access denied", 403⟩ :=
  ⟨(ownership_or_admin_iff ownerUser 5).1.mpr (Or.inl rfl),
    (ownership_or_admin_iff ownerUser 7).2 (by decide)⟩

/-- C4: the role-membership predicate fails with 401 when no principal is
attached, passes when the attached principal's role is in the allowed set,
and fails with 403 when it is not. -/
theorem role_gate_spec (roles : List UserRole) (u : AuthenticatedUser) :
    requireRole roles none = .error ⟨"Authentication required", 401⟩ ∧
    (u.role ∈ roles → requireRole roles (some u) = .ok ()) ∧
    (u.role ∉ roles → requireRole roles (some u) =
      .error ⟨"Insufficient permissions", 403⟩) := by
  refine ⟨rfl, ?_, ?_⟩
  · intro h
    simp [requireRole, List.elem_iff, h]
  · intro h
    simp [requireRole, List.elem_iff, h]

/-- C4 witness: concrete no-principal 401, member pass, non-member 403. -/
theorem role_gate_spec_witness :
    requireRole [.ADMIN] none = .error ⟨"Authentication required", 401⟩ ∧
    requireRole [.ADMIN, .MODERATOR] (some adminUser) = .ok () ∧
    requireRole [.ADMIN] (some ownerUser) =
      .error ⟨"Insufficient permissions", 403⟩ :=
  ⟨(role_gate_spec [.ADMIN] adminUser).1,
    (role_gate_spec [.ADMIN, .MODERATOR] adminUser).2.1 (by decide),
    (role_gate_spec [.ADMIN] ownerUser).2.2 (by decide)⟩

theorem assocGet_eq_none_iff {β : Type} (l : List (String × β)) (k0 : String) :
    assocGet l k0 = none ↔ ∀ p ∈ l, p.1 ≠ k0 := by
  simp [assocGet, Option.map_eq_none', List.find?_eq_none]

theorem assocGet_delete_self {β : Type} (l : List (String × β)) (k : String) :
    assocGet (assocDelete l k) k = none := by
  rw [assocGet_eq_none_iff]
  intro p hp
  have := List.of_mem_filter hp
  simpa using this

theorem assocGet_set_ne {β : Type} (l : List (String × β)) (k : String) (v : β)
    (k0 : String) (hk : k ≠ k0) (h0 : assocGet l k0 = none) :
    assocGet (assocSet l k v) k0 = none := by
  rw [assocGet_eq_none_iff] at h0 ⊢
  intro p hp
  by_cases hany : l.any fun q => q.1 == k
  · rw [assocSet, if_pos hany] at hp
    obtain ⟨q, hq, rfl⟩ := List.mem_map.mp hp
    by_cases hqk : q.1 = k
    · simpa [hqk] using hk
    · simpa [hqk] using h0 q hq
  · rw [assocSet, if_neg hany] at hp
    rcases List.mem_append.mp hp with h | h
    · exact h0 p h
    · have : p = (k, v) := by simpa using h
      rw [this]
      exact hk

theorem assocSet_length_le {β : Type} (l : List (String × β)) (k : String) (v : β) :
    (assocSet l k v).length ≤ l.length + 1 := by
  unfold assocSet
  split
  · simp
  · simp

theorem assocDelete_head_lt {β : Type} (x : String × β) (xs : List (String × β)) :
    (assocDelete (x :: xs) x.1).length < (x :: xs).length := by
  unfold assocDelete
  simp only [List.filter_cons, bne_self_eq_false, List.length_cons]
  exact Nat.lt_succ_of_le (List.length_filter_le _ _)

theorem set_preserves_capacity {α : Type} (c : SimpleCache α) (key : String)
    (data : α) (ttl now : Int) (h : c.entries.length ≤ cacheMaxSize) :
    (c.set key data ttl now).entries.length ≤ cacheMaxSize := by
  cases hc : c.entries with
  | nil =>
    simp [SimpleCache.set, hc, cacheMaxSize, assocSet]
  | cons x xs =>
    rw [hc] at h
    by_cases hfull : (x :: xs).length ≥ cacheMaxSize
    · have h1 : (assocDelete (x :: xs) x.1).length < (x :: xs).length :=
        assocDelete_head_lt x xs
      have h2 := assocSet_length_le (assocDelete (x :: xs) x.1) key
        (⟨data, now, ttl * 1000⟩ : CacheEntry α)
      simp only [SimpleCache.set, hc, hfull, if_pos, List.head?_cons]
      omega
    · have h2 := assocSet_length_le (x :: xs) key
        (⟨data, now, ttl * 1000⟩ : CacheEntry α)
      have hlt : (x :: xs).length < cacheMaxSize := Nat.not_le.mp hfull
      simp only [SimpleCache.set, hc]
      rw [if_neg hfull]
      omega

theorem get_state_length_le {α : Type} (c : SimpleCache α) (key : String) (now : Int) :
    ((c.get key now).2).entries.length ≤ c.entries.length := by
  unfold SimpleCache.get
  cases hget : assocGet c.entries key with
  | none => simp
  | some e =>
    by_cases hexp : now - e.timestamp > e.ttl
    · simp only [hexp, if_pos]
      exact List.length_filter_le _ _
    · simp [hexp]

theorem applyOp_preserves_capacity {α : Type} (c : SimpleCache α) (op : CacheOp α)
    (h : c.entries.length ≤ cacheMaxSize) :
    (applyOp c op).entries.length ≤ cacheMaxSize := by
  cases op with
  | setOp k d t n => exact set_preserves_capacity c k d t n h
  | getOp k n => exact le_trans (get_state_length_le c k n) h
  | delOp k => exact le_trans (List.length_filter_le _ _) h
  | clearOp => simp [applyOp, SimpleCache.clearAll, cacheMaxSize]
  | invalidateOp p =>
    simp only [applyOp]
    unfold invalidateCache
    split
    · simp [SimpleCache.clearAll, cacheMaxSize]
    · exact h

theorem foldl_preserves_capacity {α : Type} (ops : List (CacheOp α))
    (c : SimpleCache α) (h : c.entries.length ≤ cacheMaxSize) :
    (ops.foldl applyOp c).entries.length ≤ cacheMaxSize := by
  induction ops generalizing c with
  | nil => exact h
  | cons op ops ih =>
    exact ih (applyOp c op) (applyOp_preserves_capacity c op h)

/-- C9: when a `set` is performed on a cache already holding the maximum
number of entries, the oldest-inserted entry (the head of the map's
insertion order) is evicted — its key is gone after the call when it is not
the key being stored — and the entry count stays within the maximum after
any sequence of cache operations starting from the empty cache. -/
theorem cache_eviction_and_capacity (α : Type) :
    (∀ (c : SimpleCache α) (key : String) (data : α) (ttl now : Int) (k0 : String),
      c.entries.head?.map Prod.fst = some k0 →
      cacheMaxSize ≤ c.entries.length → key ≠ k0 →
      assocGet (c.set key data ttl now).entries k0 = none) ∧
    (∀ ops : List (CacheOp α),
      (ops.foldl applyOp (emptyCache α)).entries.length ≤ cacheMaxSize) := by
  constructor
  · intro c key data ttl now k0 hhead hfull hne
    cases hc : c.entries with
    | nil => rw [hc] at hhead; simp at hhead
    | cons x xs =>
      rw [hc] at hhead
      have hx1 : x.1 = k0 := by simpa using hhead
      unfold SimpleCache.set
      rw [hc] at hfull ⊢
      have hge : (x :: xs).length ≥ cacheMaxSize := hfull
      simp only [hge, if_pos, List.head?_cons]
      apply assocGet_set_ne _ _ _ _ hne
      rw [← hx1]
      exact assocGet_delete_self (x :: xs) x.1
  · intro ops
    exact foldl_preserves_capacity ops (emptyCache α) (by simp [emptyCache])

/-- C9 witness: on a concrete full cache, storing a fresh key evicts the
oldest key "k0", and a concrete operation sequence keeps the count within
the maximum. -/
theorem cache_eviction_and_capacity_witness :
    assocGet ((bigCache.set "fresh" 7 1 0).entries) "k0" = none ∧
    (([CacheOp.setOp "a" (5 : Nat) 1 0].foldl applyOp (emptyCache Nat)).entries.length
      ≤ cacheMaxSize) :=
  ⟨(cache_eviction_and_capacity Nat).1 bigCache "fresh" 7 1 0 "k0"
      rfl (by simp [bigCache, cacheMaxSize]) (by decide),
    (cache_eviction_and_capacity Nat).2 [CacheOp.setOp "a" 5 1 0]⟩

/-- C5 counterexample: the pattern "posts*" matches the cached key "posts:1"
under the spec's prefix/glob rule, yet `invalidateCache "posts*"` leaves the
entry in place, because the code only handles the literal pattern
"users*". -/
theorem invalidateCache_counterexample :
    specGlobMatches "posts*" "posts:1" = true ∧
    assocGet ((invalidateCache "posts*" postsCache).entries) "posts:1" =
      some ⟨"v", 0, 1000⟩ := by
  decide

/-- C5 amended: `invalidateCache` clears the whole cache for the literal
pattern "users*" (removing every matching entry, over-matching accepted) and
removes nothing for any other pattern, leaving the cache unchanged. -/
theorem invalidateCache_amended (α : Type) (p : String) (c : SimpleCache α) :
    (p = "users*" → (invalidateCache p c).entries = []) ∧
    (p ≠ "users*" → invalidateCache p c = c) := by
  constructor
  · intro h
    simp [invalidateCache, h, SimpleCache.clearAll]
  · intro h
    simp [invalidateCache, h]

/-- C5 amended witness: concrete clearing on "users*" and no-op on
"posts*". -/
theorem invalidateCache_amended_witness :
    (invalidateCache "users*" postsCache).entries = [] ∧
    invalidateCache "posts*" postsCache = postsCache :=
  ⟨(invalidateCache_amended String "users*" postsCache).1 rfl,
    (invalidateCache_amended String "posts*" postsCache).2 (by decide)⟩

/-- C6 counterexample: at the exact ttl boundary (`now - storedAt = ttl`)
the code still returns the payload, so "visible only while
now - storedAt < ttl" fails; the code's expiry test is strict. -/
theorem cache_get_boundary_counterexample :
    (boundaryCache.get "k" 1000).1 = some "v" ∧ ¬((1000 : Int) - 0 < 1000) := by
  decide

/-- C6 amended: `get` returns the stored payload exactly while
`now - storedAt ≤ ttl`; a missing key is a miss leaving the cache unchanged,
and once `now - storedAt > ttl` the read is a miss that removes the stale
entry. -/
theorem cache_get_amended (α : Type) (c : SimpleCache α) (key : String) (now : Int) :
    (assocGet c.entries key = none → c.get key now = (none, c)) ∧
    (∀ e, assocGet c.entries key = some e →
      (now - e.timestamp ≤ e.ttl → c.get key now = (some e.data, c)) ∧
      (e.ttl < now - e.timestamp →
        c.get key now = (none, ⟨assocDelete c.entries key⟩))) ∧
    (∀ x c2, c.get key now = (some x, c2) →
      ∃ e, assocGet c.entries key = some e ∧ x = e.data ∧
        now - e.timestamp ≤ e.ttl ∧ c2 = c) := by
  refine ⟨?_, ?_, ?_⟩
  · intro h
    simp [SimpleCache.get, h]
  · intro e he
    constructor
    · intro hle
      have hne : ¬(now - e.timestamp > e.ttl) := not_lt.mpr hle
      simp [SimpleCache.get, he, hne]
    · intro hgt
      have hpos : now - e.timestamp > e.ttl := hgt
      simp [SimpleCache.get, he, hpos]
  · intro x c2 hx
    cases hget : assocGet c.entries key with
    | none => simp [SimpleCache.get, hget] at hx
    | some e =>
      by_cases hexp : now - e.timestamp > e.ttl
      · simp [SimpleCache.get, hget, hexp] at hx
      · simp [SimpleCache.get, hget, hexp] at hx
        exact ⟨e, rfl, hx.1.symm, not_lt.mp hexp, hx.2.symm⟩

/-- C6 amended witness: a concrete entry at the ttl boundary is returned
with the cache unchanged, and a concrete stale entry is removed. -/
theorem cache_get_amended_witness :
    boundaryCache.get "k" 1000 = (some "v", boundaryCache) ∧
    boundaryCache.get "k" 1001 = (none, ⟨[]⟩) :=
  ⟨((cache_get_amended String boundaryCache "k" 1000).2.1 ⟨"v", 0, 1000⟩
      (by decide)).1 (by decide),
    ((cache_get_amended String boundaryCache "k" 1001).2.1 ⟨"v", 0, 1000⟩
      (by decide)).2 (by decide)⟩

set_option maxRecDepth 40000 in
/-- C7 counterexample: "/health" is a health-check path by the general
limiter's own skip predicate, yet the progressive-delay tier — configured
with no skip — counts such requests, and the 51st rapid health request from
one client receives a nonzero artificial delay (5000 ms). -/
theorem health_not_exempt_counterexample :
    jsIncludes "/health" "/health" = true ∧
    (slowDownStep speedLimiterCfg (speedAfter 50) "ip1" "/health" 0).1 = 5000 := by
  decide

/-- C7 amended: health-check paths are exempt from the general rate-limit
tier — skipped, never counted or rejected there — while the
progressive-delay tier applies to them exactly as to any other path (its
behavior does not depend on the path at all). -/
theorem health_exemption_amended (st : List (String × RateWindow))
    (key path path2 : String) (now : Int) :
    (jsIncludes path "/health" = true →
      rateLimitStep generalLimiterCfg st key path now = (.allowed, st)) ∧
    slowDownStep speedLimiterCfg st key path now =
      slowDownStep speedLimiterCfg st key path2 now := by
  constructor
  · intro h
    simp [rateLimitStep, generalLimiterCfg, h]
  · rfl

/-- C7 amended witness: a concrete health request is passed through
untouched by the general tier and treated by the speed tier exactly like a
non-health request. -/
theorem health_exemption_amended_witness :
    rateLimitStep generalLimiterCfg [] "ip" "/api/health" 0 = (.allowed, []) ∧
    slowDownStep speedLimiterCfg [] "ip" "/api/health" 0 =
      slowDownStep speedLimiterCfg [] "ip" "/users" 0 :=
  ⟨(health_exemption_amended [] "ip" "/api/health" "/users" 0).1 (by decide),
    (health_exemption_amended [] "ip" "/api/health" "/users" 0).2⟩

/-- C8: every rejection of a tier with a nonzero threshold carries a
retry-after equal to the remaining time in the client's current window
(hence at most the window length when the window started in the past), and
against the 5-attempts-per-15-minutes auth tier the sixth rapid failed
login from one client is rejected with a retry-after of 900000 ms, which is
at most 900 seconds. -/
theorem currentWindow_mem (cfg : RateLimitConfig) (st : List (String × RateWindow))
    (key : String) (now : Int)
    (h : (currentWindow cfg st key now).count ≠ 0) :
    assocGet st key = some (currentWindow cfg st key now) ∧
    now - (currentWindow cfg st key now).windowStart < cfg.windowMs := by
  unfold currentWindow at h ⊢
  cases hget : assocGet st key with
  | none =>
    rw [hget] at h
    simp at h
  | some w =>
    simp only [hget] at h ⊢
    by_cases hstale : now - w.windowStart ≥ cfg.windowMs
    · rw [if_pos hstale] at h
      simp at h
    · rw [if_neg hstale] at h ⊢
      exact ⟨rfl, by omega⟩

theorem rate_limit_retry_after (cfg : RateLimitConfig) :
    (∀ (st : List (String × RateWindow)) (key path : String) (now r : Int)
      (st2 : List (String × RateWindow)), 1 ≤ cfg.maxRequests →
      rateLimitStep cfg st key path now = (.rejected r, st2) →
      ∃ w, assocGet st key = some w ∧ now - w.windowStart < cfg.windowMs ∧
        r = w.windowStart + cfg.windowMs - now ∧
        (w.windowStart ≤ now → r ≤ cfg.windowMs)) ∧
    ((authAttempts 0 6).1 = .rejected 900000 ∧ (900000 : Int) ≤ 900 * 1000) := by
  constructor
  · intro st key path now r st2 hmax h
    unfold rateLimitStep at h
    by_cases hskip : cfg.skipPath path
    · rw [if_pos hskip] at h
      simp at h
    · rw [if_neg hskip] at h
      by_cases hover : (bumpedWindow cfg st key now).count > cfg.maxRequests
      · rw [if_pos hover] at h
        have hcount : (currentWindow cfg st key now).count ≠ 0 := by
          have : (bumpedWindow cfg st key now).count =
              (currentWindow cfg st key now).count + 1 := rfl
          omega
        obtain ⟨hget, hlt⟩ := currentWindow_mem cfg st key now hcount
        have hr : r = (bumpedWindow cfg st key now).windowStart + cfg.windowMs - now := by
          have := congrArg Prod.fst h
          simpa using this.symm
        have hws : (bumpedWindow cfg st key now).windowStart =
            (currentWindow cfg st key now).windowStart := rfl
        refine ⟨currentWindow cfg st key now, hget, hlt, ?_, ?_⟩
        · rw [hr, hws]
        · intro hle
          rw [hr, hws]
          omega
      · rw [if_neg hover] at h
        simp at h
  · constructor
    · decide
    · norm_num

/-- C8 witness: a concrete rejection of the auth tier applied to the
generic retry-after characterization. -/
theorem rate_limit_retry_after_witness :
    ∃ w, assocGet [("ip", (⟨5, 0⟩ : RateWindow))] "ip" = some w ∧
      (0 : Int) - w.windowStart < authLimiterCfg.windowMs ∧
      (900000 : Int) = w.windowStart + authLimiterCfg.windowMs - 0 ∧
      (w.windowStart ≤ 0 → (900000 : Int) ≤ authLimiterCfg.windowMs) :=
  (rate_limit_retry_after authLimiterCfg).1 [("ip", ⟨5, 0⟩)] "ip"
    "/api/v1/auth/login" 0 900000 [("ip", ⟨6, 0⟩)] (by decide) (by decide)

/-- C10: the public projection used by register, login and getUserById is
blind to the stored password, and every user value those operations return
is such a projection of a stored record — so no returned value carries the
password field. -/
theorem no_password_in_responses (store : List User) (secret : String)
    (now expMs : Int) (nm em pw : String) (uid : Int) :
    (∀ (u : User) (p2 : String), toPublic { u with password := p2 } = toPublic u) ∧
    (∀ st2 res, register store secret now expMs nm em pw = .ok (st2, res) →
      ∃ u, res.user = toPublic u) ∧
    (∀ res, login store secret now expMs em pw = .ok res →
      ∃ u, u ∈ store ∧ res.user = toPublic u) ∧
    (∀ pu, getUserById store uid = some pu → ∃ u, u ∈ store ∧ pu = toPublic u) := by
  refine ⟨fun u p2 => rfl, ?_, ?_, ?_⟩
  · intro st2 res h
    by_cases hdup : store.any fun u => u.email == em
    · unfold register at h
      rw [if_pos hdup] at h
      cases h
    · unfold register at h
      rw [if_neg hdup] at h
      cases h
      exact ⟨_, rfl⟩
  · intro res h
    cases hfind : store.find? fun u => u.email == em with
    | none =>
      unfold login at h
      rw [hfind] at h
      cases h
    | some u =>
      have hmem : u ∈ store := List.mem_of_find?_eq_some hfind
      unfold login at h
      simp only [hfind] at h
      split_ifs at h
      cases h
      exact ⟨u, hmem, rfl⟩
  · intro pu h
    cases hfind : store.find? fun u => u.id == uid && u.isActive with
    | none =>
      unfold getUserById at h
      rw [hfind] at h
      cases h
    | some u =>
      unfold getUserById at h
      rw [hfind] at h
      have : toPublic u = pu := by simpa using h
      exact ⟨u, List.mem_of_find?_eq_some hfind, this.symm⟩

/-- C10 witness: the concrete principal returned by a concrete lookup is
the password-free projection of a stored record. -/
theorem no_password_in_responses_witness :
    ∃ u, u ∈ demoStore ∧
      (⟨1, "alice", "a@x", UserRole.USER, true⟩ : AuthenticatedUser) = toPublic u :=
  (no_password_in_responses demoStore "s" 0 1000 "n" "a@x" "pw" 1).2.2.2
    ⟨1, "alice", "a@x", .USER, true⟩ (by decide)

end Gateway
